import Mathlib

/-
Verification of the Google Sheets combiner core (app.py):
a shallow embedding of the acquisition/normalization/combination pipeline
of `GoogleSheetsCombiner`, with theorems checking the specified behavior.
-/

set_option autoImplicit false

namespace App

/-! ## Basic string helpers (models of the Python string operations used) -/

/-- Models `not header or header.strip() == ''`: the header cell is empty or
whitespace-only. -/
def blank (s : String) : Bool :=
  s.toList.all Char.isWhitespace

/-- Models Python `str.strip()` on the character sequence of a string. -/
def trimChars (l : List Char) : List Char :=
  ((l.dropWhile Char.isWhitespace).reverse.dropWhile Char.isWhitespace).reverse

/-- Models `response.text.strip().startswith('<!DOCTYPE html>')`
(app.py line 327). -/
def htmlShell (text : String) : Bool :=
  List.isPrefixOf "<!DOCTYPE html>".toList (trimChars text.toList)

/-! ## Header deduplication (app.py lines 286-296 and 333-342)

The Python code keeps a dict `header_count` mapping a header name to the
number of duplicates seen so far; we model it as an association list. -/

/-- Lookup in the `header_count` dict. -/
def getCount : List (String × Nat) → String → Option Nat
  | [], _ => none
  | (k, v) :: rest, key => if k = key then some v else getCount rest key

/-- Update/insert in the `header_count` dict. -/
def setCount : List (String × Nat) → String → Nat → List (String × Nat)
  | [], key, v => [(key, v)]
  | (k, w) :: rest, key, v =>
    if k = key then (k, v) :: rest else (k, w) :: setCount rest key v

/-- The pure left-to-right deduplication pass: a first occurrence is kept
as-is, the k-th subsequent occurrence of the same name gets suffix `_k`.
This is the loop of app.py lines 333-342 (public channel), where every
header is already a string. -/
def dedupAux : List String → List (String × Nat) → List String
  | [], _ => []
  | h :: rest, m =>
    match getCount m h with
    | some c => (h ++ "_" ++ toString (c + 1)) :: dedupAux rest (setCount m h (c + 1))
    | none => h :: dedupAux rest (setCount m h 0)

def dedupHeaders (hs : List String) : List String :=
  dedupAux hs []

/-- Positional blank-header synthesis: the cell at 0-based index `i` becomes
`Column_<i+1>` when blank. -/
def fillAux : List String → Nat → List String
  | [], _ => []
  | h :: rest, i =>
    (if blank h then "Column_" ++ toString (i + 1) else h) :: fillAux rest (i + 1)

def fillBlank (hs : List String) : List String :=
  fillAux hs 0

/-- The combined loop of app.py lines 286-296 (authenticated channel):
blank cells are synthesized to `Column_<position>` and names are
deduplicated with `_<count>` suffixes, in one pass. -/
def uniqueAux : List String → Nat → List (String × Nat) → List String
  | [], _, _ => []
  | h :: rest, i, m =>
    let h2 := if blank h then "Column_" ++ toString (i + 1) else h
    match getCount m h2 with
    | some c => (h2 ++ "_" ++ toString (c + 1)) :: uniqueAux rest (i + 1) (setCount m h2 (c + 1))
    | none => h2 :: uniqueAux rest (i + 1) (setCount m h2 0)

def uniqueHeaders (hs : List String) : List String :=
  uniqueAux hs 0 []

/-! ## Grid padding (app.py lines 268-275) -/

/-- `max(len(row) for row in values)` (0 for the empty grid). -/
def maxCols : List (List String) → Nat
  | [] => 0
  | r :: rest => max r.length (maxCols rest)

/-- `row + [''] * (max_cols - len(row))`. -/
def padRow (n : Nat) (r : List String) : List String :=
  r ++ List.replicate (n - r.length) ""

/-! ## Normalized tables -/

/-- The pandas DataFrame produced by `fetch_sheet_data`: ordered column
labels and rows of cell strings. -/
structure NormalizedTable where
  cols : List String
  rows : List (List String)
deriving DecidableEq

def emptyTable : NormalizedTable := ⟨[], []⟩

/-- Models `df['_source_sheet'] = provenance`: pandas overwrites an existing
column of that label in place, otherwise appends a new column. -/
def stampSource (cols : List String) (rows : List (List String)) (prov : String) :
    NormalizedTable :=
  if "_source_sheet" ∈ cols then
    ⟨cols, rows.map (fun r =>
      List.zipWith (fun c v => if c = "_source_sheet" then prov else v) cols r)⟩
  else
    ⟨cols ++ ["_source_sheet"], rows.map (fun r => r ++ [prov])⟩

/-- Shared tail of the authenticated fetch (app.py lines 283-303): header
selection at `idx`, header normalization, data rows strictly after the
header row, provenance stamping. -/
def buildTable (padded : List (List String)) (idx : Nat) (prov : String) :
    NormalizedTable :=
  stampSource (uniqueHeaders (padded.getD idx [])) (padded.drop (idx + 1)) prov

/-- User-visible notices/errors the fetch surfaces through `st.warning` /
`st.error`, classified by message. -/
inductive FetchNote where
  | emptySheetWarning
  | clampNotice
  | notPubliclyAccessible
  | emptyDataWarning
  | processingError
  | authRequired
  | transportFailure
deriving DecidableEq

structure FetchResult where
  table : NormalizedTable
  notes : List FetchNote
deriving DecidableEq

/-- The authenticated-channel body of `fetch_sheet_data` (app.py lines
263-305), applied to the value grid returned by the API. -/
def processValues (values : List (List String)) (prov : String) (header_row : Nat) :
    FetchResult :=
  if values.isEmpty then
    { table := emptyTable, notes := [FetchNote.emptySheetWarning] }
  else
    let padded := values.map (padRow (maxCols values))
    if padded.length ≤ header_row - 1 then
      { table := buildTable padded 0 prov, notes := [FetchNote.clampNotice] }
    else
      { table := buildTable padded (header_row - 1) prov, notes := [] }

/-- `range_name = f"'{sheet_name}'" if sheet_name else "Sheet1"` (line 255). -/
def rangeName (sheet_name : String) : String :=
  if sheet_name = "" then "Sheet1" else "'" ++ sheet_name ++ "'"

/-- `sheet_name or f"Sheet_{sheet_id}_gid{gid}"` (lines 303 and 345). -/
def provenance (sheet_name sheet_id gid : String) : String :=
  if sheet_name = "" then "Sheet_" ++ sheet_id ++ "_gid" ++ gid else sheet_name

/-- The authenticated channel of `fetch_sheet_data` (app.py lines 252-305).
`remote` maps an A1 range name to the value grid the API returns for it;
two fetches against the same spreadsheet see the same `remote`. -/
def fetch_sheet_data_auth (remote : String → List (List String))
    (sheet_id sheet_name gid : String) (header_row : Nat) : FetchResult :=
  processValues (remote (rangeName sheet_name)) (provenance sheet_name sheet_id gid)
    header_row

/-- The outcome of the public CSV-export request (app.py lines 321-330):
either a transport error, or a body with its response text and the row grid
`pd.read_csv` parses out of it. -/
inductive PublicResponse where
  | transportError (unauthorized : Bool)
  | body (text : String) (rows : List (List String))

/-- The public (unauthenticated) channel of `fetch_sheet_data` (app.py lines
319-361). An out-of-range `header_row` makes `pd.read_csv` raise, which the
generic handler catches, returning an empty table with an error notice. -/
def fetch_sheet_data_public (resp : PublicResponse)
    (sheet_id sheet_name gid : String) (header_row : Nat) : FetchResult :=
  match resp with
  | PublicResponse.transportError unauthorized =>
    if unauthorized then { table := emptyTable, notes := [FetchNote.authRequired] }
    else { table := emptyTable, notes := [FetchNote.transportFailure] }
  | PublicResponse.body text rows =>
    if htmlShell text then
      { table := emptyTable, notes := [FetchNote.notPubliclyAccessible] }
    else if rows.isEmpty then
      { table := emptyTable, notes := [FetchNote.emptyDataWarning] }
    else if rows.length ≤ header_row - 1 then
      { table := emptyTable, notes := [FetchNote.processingError] }
    else
      { table := stampSource (dedupHeaders (rows.getD (header_row - 1) []))
          (rows.drop ((header_row - 1) + 1))
          (provenance sheet_name sheet_id gid),
        notes := [] }

/-! ## Identifier extraction (app.py lines 147-155) -/

/-- The character class `[a-zA-Z0-9-_]` of the URL pattern. -/
def isIdChar (c : Char) : Bool :=
  c.isAlpha || c.isDigit || c = '-' || c = '_'

/-- Tries to match the literal pattern characters at the head of `s`; on
success returns the (one-or-more) id characters that follow. -/
def matchSeg : List Char → List Char → Option (List Char)
  | [], [] => none
  | [], c :: cs => if isIdChar c then some (c :: cs.takeWhile isIdChar) else none
  | _ :: _, [] => none
  | p :: ps, c :: cs => if c = p then matchSeg ps cs else none

/-- `re.search` scanning: try the pattern at every start position, leftmost
match wins. -/
def extractAux : List Char → Option (List Char)
  | [] => none
  | c :: rest =>
    match matchSeg "/spreadsheets/d/".toList (c :: rest) with
    | some ids => some ids
    | none => extractAux rest

/-- `extract_sheet_id` (app.py lines 147-155): `none` models the raised
`ValueError` ("Invalid Google Sheets URL format"). -/
def extract_sheet_id (url : String) : Option String :=
  (extractAux url.toList).map (fun cs => String.mk cs)

/-! ## Combination (app.py lines 393-400), modelling `pd.concat` -/

/-- A combined table: cells are `Option String` because `pd.concat` fills a
column missing from a source frame with the NaN missing marker, not with a
string. -/
structure CombinedTable where
  cols : List String
  rows : List (List (Option String))
deriving DecidableEq

/-- The cell a source row contributes at combined column `c`: the value at
the first position labelled `c` in the source's columns, or the missing
marker when the source has no such column. -/
def lookupCell : List String → List String → String → Option String
  | [], _, _ => none
  | tc :: tcs, r, c => if tc = c then r.head? else lookupCell tcs r.tail c

def alignRow (tcols : List String) (r : List String) (ccols : List String) :
    List (Option String) :=
  ccols.map (lookupCell tcols r)

/-- Column union in first-seen order, as `pd.concat` computes the combined
column index. -/
def combinedCols (ts : List NormalizedTable) : List String :=
  ts.foldl (fun acc t => acc ++ t.cols.filter (fun c => decide (c ∉ acc))) []

/-- `pd.concat([...], ignore_index=True)` over the sheets' tables. -/
def combineTables (ts : List NormalizedTable) : CombinedTable :=
  let cc := combinedCols ts
  ⟨cc, (ts.map (fun t => t.rows.map (fun r => alignRow t.cols r cc))).flatten⟩

/-! ## The Combiner (app.py lines 138-424) -/

/-- One entry of `self.sheets_data` (app.py lines 377-384). -/
structure AcquiredSheet where
  id : String
  gid : String
  name : String
  display_name : String
  data : NormalizedTable
  header_row : Nat
deriving DecidableEq

structure Combiner where
  sheets_data : List AcquiredSheet
  combined_data : CombinedTable
deriving DecidableEq

/-- `__init__`: empty sheet list, empty cached combined frame. -/
def Combiner.init : Combiner := ⟨[], ⟨[], []⟩⟩

/-- `add_sheet` (app.py lines 366-391), applied to the table the fetch
produced. `df is not None and not df.empty` keeps the sheet exactly when
the frame has both rows and columns. -/
def Combiner.add_sheet (c : Combiner) (fetched : NormalizedTable)
    (sheet_id gid sheet_name : String) (header_row : Nat)
    (custom_name : Option String) : Bool × Combiner :=
  if fetched.rows.isEmpty || fetched.cols.isEmpty then
    (false, c)
  else
    let display := match custom_name with
      | some s => if s = "" then sheet_name else s
      | none => sheet_name
    (true, { c with sheets_data :=
      c.sheets_data ++ [⟨sheet_id, gid, sheet_name, display, fetched, header_row⟩] })

/-- `combine_sheets` (app.py lines 393-400): `none` models the raised
`ValueError` ("No sheets added yet."); otherwise returns the combined table
and caches it in `combined_data`. -/
def Combiner.combine (c : Combiner) : Option (CombinedTable × Combiner) :=
  if c.sheets_data.isEmpty then none
  else
    let ct := combineTables (c.sheets_data.map (fun s => s.data))
    some (ct, { c with combined_data := ct })

structure SheetStat where
  name : String
  rows : Nat
  header_row : Nat
deriving DecidableEq

structure Summary where
  columns : List String
  total_rows : Nat
  total_columns : Nat
  sheets : List SheetStat
deriving DecidableEq

/-- `get_summary` (app.py lines 402-424): totals are read from the cached
`combined_data`; per-sheet stats from the live `sheets_data`. -/
def Combiner.get_summary (c : Combiner) : Summary :=
  ⟨c.combined_data.cols, c.combined_data.rows.length, c.combined_data.cols.length,
   c.sheets_data.map (fun s => ⟨s.display_name, s.data.rows.length, s.header_row⟩)⟩

/-- A session trace: add one sheet, combine, then add a second sheet without
recombining — the state `get_summary` is then called on. -/
def staleDemo : Combiner :=
  let c1 := (Combiner.init.add_sheet ⟨["A", "_source_sheet"], [["1", "S1"]]⟩
    "id" "0" "S1" 1 none).2
  let c2 := ((c1.combine).getD (⟨[], []⟩, c1)).2
  (c2.add_sheet ⟨["A", "_source_sheet"], [["2", "S2"]]⟩ "id" "1" "S2" 1 none).2

/-! ## Helper lemmas -/

theorem getCount_setCount (m : List (String × Nat)) (k : String) (v : Nat)
    (key : String) :
    getCount (setCount m k v) key = if k = key then some v else getCount m key := by
  induction m with
  | nil => by_cases h : k = key <;> simp [setCount, getCount, h]
  | cons p rest ih =>
    obtain ⟨a, b⟩ := p
    by_cases hak : a = k
    · subst hak
      by_cases hk : a = key <;> simp [setCount, getCount, hk]
    · by_cases hk : a = key
      · subst hk
        have hka : ¬ k = a := fun he => hak he.symm
        simp [setCount, getCount, hak, hka]
      · simp [setCount, getCount, hak, hk, ih]

theorem dedupAux_fresh : ∀ (l : List String) (m : List (String × Nat)),
    l.Nodup → (∀ s ∈ l, getCount m s = none) → dedupAux l m = l := by
  intro l
  induction l with
  | nil => intro m _ _; rfl
  | cons h rest ih =>
    intro m hnd hfresh
    have hh : getCount m h = none := hfresh h (by simp)
    simp only [dedupAux, hh, List.cons.injEq, true_and]
    apply ih
    · exact (List.nodup_cons.mp hnd).2
    · intro s hs
      rw [getCount_setCount]
      have hne : ¬ h = s := fun he => (List.nodup_cons.mp hnd).1 (he ▸ hs)
      simp [hne]
      exact hfresh s (by simp [hs])

theorem fillAux_id : ∀ (l : List String) (i : Nat),
    (∀ s ∈ l, blank s = false) → fillAux l i = l := by
  intro l
  induction l with
  | nil => intro i _; rfl
  | cons h rest ih =>
    intro i hnb
    have hh : blank h = false := hnb h (by simp)
    simp only [fillAux, hh, Bool.false_eq_true, if_false, List.cons.injEq, true_and]
    exact ih (i + 1) (fun s hs => hnb s (by simp [hs]))

theorem uniqueAux_eq_dedup_fill : ∀ (l : List String) (i : Nat)
    (m : List (String × Nat)), uniqueAux l i m = dedupAux (fillAux l i) m := by
  intro l
  induction l with
  | nil => intro i m; rfl
  | cons h rest ih =>
    intro i m
    simp only [uniqueAux, fillAux, dedupAux]
    cases hg : getCount m (if blank h then "Column_" ++ toString (i + 1) else h) with
    | some c => simp [hg, ih]
    | none => simp [hg, ih]

theorem length_uniqueAux : ∀ (l : List String) (i : Nat) (m : List (String × Nat)),
    (uniqueAux l i m).length = l.length := by
  intro l
  induction l with
  | nil => intro i m; rfl
  | cons h rest ih =>
    intro i m
    simp only [uniqueAux]
    cases hg : getCount m (if blank h then "Column_" ++ toString (i + 1) else h) <;>
      simp [hg, ih]

theorem length_le_maxCols : ∀ (g : List (List String)) (r : List String),
    r ∈ g → r.length ≤ maxCols g := by
  intro g
  induction g with
  | nil => simp
  | cons a rest ih =>
    intro r hr
    rcases List.mem_cons.mp hr with h | h
    · subst h; exact le_max_left _ _
    · exact le_trans (ih r h) (le_max_right _ _)

theorem padRow_length {n : Nat} {r : List String} (h : r.length ≤ n) :
    (padRow n r).length = n := by
  simp [padRow]
  omega

theorem mem_padded_length {g : List (List String)} {r : List String}
    (h : r ∈ g.map (padRow (maxCols g))) : r.length = maxCols g := by
  obtain ⟨r0, hr0, rfl⟩ := List.mem_map.mp h
  exact padRow_length (length_le_maxCols g r0 hr0)

theorem stampSource_rect (cols : List String) (rows : List (List String))
    (prov : String) (hrows : ∀ r ∈ rows, r.length = cols.length) :
    ∀ r ∈ (stampSource cols rows prov).rows,
      r.length = (stampSource cols rows prov).cols.length := by
  unfold stampSource
  by_cases hin : "_source_sheet" ∈ cols
  · simp only [hin, if_pos]
    intro r hr
    obtain ⟨r0, hr0, rfl⟩ := List.mem_map.mp hr
    simp [List.length_zipWith, hrows r0 hr0]
  · simp only [hin, if_neg, not_false_iff]
    intro r hr
    obtain ⟨r0, hr0, rfl⟩ := List.mem_map.mp hr
    simp [hrows r0 hr0]

theorem getD_mem_of_lt {α : Type} (l : List α) (i : Nat) (d : α)
    (h : i < l.length) : l.getD i d ∈ l := by
  induction l generalizing i with
  | nil => simp at h
  | cons a rest ih =>
    cases i with
    | zero => simp [List.getD]
    | succ j =>
      have : rest.getD j d ∈ rest := ih j (by simpa using h)
      simp [List.getD] at this ⊢
      exact Or.inr this

theorem buildTable_rect (padded : List (List String)) (idx : Nat) (prov : String)
    (n : Nat) (hall : ∀ r ∈ padded, r.length = n) (hidx : idx < padded.length) :
    ∀ r ∈ (buildTable padded idx prov).rows,
      r.length = (buildTable padded idx prov).cols.length := by
  apply stampSource_rect
  intro r hr
  have h1 : r ∈ padded := List.mem_of_mem_drop hr
  have h2 : (padded.getD idx []).length = n := hall _ (getD_mem_of_lt padded idx [] hidx)
  rw [hall r h1, ← h2]
  exact (length_uniqueAux _ 0 []).symm

theorem processValues_rect (values : List (List String)) (prov : String) (h : Nat) :
    ∀ r ∈ (processValues values prov h).table.rows,
      r.length = (processValues values prov h).table.cols.length := by
  unfold processValues
  by_cases he : values.isEmpty
  · simp [he, emptyTable]
  · have hpos : 0 < values.length := by
      cases values with
      | nil => simp at he
      | cons a rest => simp
    have hlen : (values.map (padRow (maxCols values))).length = values.length :=
      List.length_map _ _
    by_cases hc : (values.map (padRow (maxCols values))).length ≤ h - 1
    · simp only [he, Bool.false_eq_true, if_false, hc, if_pos]
      exact buildTable_rect _ 0 prov (maxCols values)
        (fun r hr => mem_padded_length hr) (by omega)
    · simp only [he, Bool.false_eq_true, if_false, hc, if_neg, not_false_iff]
      exact buildTable_rect _ (h - 1) prov (maxCols values)
        (fun r hr => mem_padded_length hr) (by omega)

theorem mem_takeWhile_idChar : ∀ (l : List Char) (c : Char),
    c ∈ l.takeWhile isIdChar → isIdChar c = true := by
  intro l
  induction l with
  | nil => simp [List.takeWhile]
  | cons a rest ih =>
    intro c hc
    rw [List.takeWhile_cons] at hc
    by_cases ha : isIdChar a
    · rw [if_pos ha] at hc
      rcases List.mem_cons.mp hc with h | h
      · subst h; exact ha
      · exact ih c h
    · rw [if_neg ha] at hc
      simp at hc

theorem matchSeg_sound : ∀ (pat s ids : List Char), matchSeg pat s = some ids →
    ids ≠ [] ∧ ∀ c ∈ ids, isIdChar c = true := by
  intro pat
  induction pat with
  | nil =>
    intro s ids h
    cases s with
    | nil => simp [matchSeg] at h
    | cons c cs =>
      simp only [matchSeg] at h
      by_cases hc : isIdChar c
      · rw [if_pos hc] at h
        have := Option.some.inj h
        subst this
        refine ⟨by simp, ?_⟩
        intro x hx
        rcases List.mem_cons.mp hx with h1 | h1
        · subst h1; exact hc
        · exact mem_takeWhile_idChar cs x h1
      · rw [if_neg hc] at h
        simp at h
  | cons p ps ih =>
    intro s ids h
    cases s with
    | nil => simp [matchSeg] at h
    | cons c cs =>
      simp only [matchSeg] at h
      by_cases hc : c = p
      · rw [if_pos hc] at h
        exact ih cs ids h
      · rw [if_neg hc] at h
        simp at h

theorem extractAux_sound : ∀ (l ids : List Char), extractAux l = some ids →
    ids ≠ [] ∧ ∀ c ∈ ids, isIdChar c = true := by
  intro l
  induction l with
  | nil => intro ids h; simp [extractAux] at h
  | cons c rest ih =>
    intro ids h
    revert h
    simp only [extractAux]
    cases hm : matchSeg "/spreadsheets/d/".toList (c :: rest) with
    | some found =>
      intro h
      have := Option.some.inj h
      subst this
      exact matchSeg_sound _ _ _ hm
    | none =>
      intro h
      exact ih ids h

theorem lookupCell_not_mem : ∀ (tcols r : List String) (c : String),
    c ∉ tcols → lookupCell tcols r c = none := by
  intro tcols
  induction tcols with
  | nil => intro r c _; rfl
  | cons tc tcs ih =>
    intro r c hc
    have h1 : ¬ tc = c := fun he => hc (by simp [he])
    have h2 : c ∉ tcs := fun he => hc (by simp [he])
    simp [lookupCell, h1, ih _ _ h2]

theorem lookupCell_mem : ∀ (tcols r : List String) (c : String),
    c ∈ tcols → r.length = tcols.length →
    ∃ v, lookupCell tcols r c = some v ∧ (c, v) ∈ tcols.zip r := by
  intro tcols
  induction tcols with
  | nil => simp
  | cons tc tcs ih =>
    intro r c hc hlen
    cases r with
    | nil => simp at hlen
    | cons v r2 =>
      by_cases he : tc = c
      · subst he
        exact ⟨v, by simp [lookupCell], by simp⟩
      · have hc2 : c ∈ tcs := by
          rcases List.mem_cons.mp hc with h | h
          · exact absurd h.symm he
          · exact h
        have hlen2 : r2.length = tcs.length := by simpa using hlen
        obtain ⟨w, hw1, hw2⟩ := ih r2 c hc2 hlen2
        refine ⟨w, ?_, ?_⟩
        · simp [lookupCell, he]
          exact hw1
        · simp only [List.zip_cons_cons, List.mem_cons]
          exact Or.inr hw2

theorem mem_foldl_union (ts : List NormalizedTable) :
    ∀ (acc : List String) (col : String),
      col ∈ ts.foldl (fun a t => a ++ t.cols.filter (fun c => decide (c ∉ a))) acc ↔
        col ∈ acc ∨ ∃ t, t ∈ ts ∧ col ∈ t.cols := by
  induction ts with
  | nil => simp
  | cons t rest ih =>
    intro acc col
    simp only [List.foldl_cons]
    rw [ih]
    constructor
    · rintro (h | h)
      · rcases List.mem_append.mp h with h1 | h1
        · exact Or.inl h1
        · exact Or.inr ⟨t, by simp, (List.mem_filter.mp h1).1⟩
      · obtain ⟨u, hu, hcol⟩ := h
        exact Or.inr ⟨u, by simp [hu], hcol⟩
    · rintro (h | ⟨u, hu, hcol⟩)
      · exact Or.inl (List.mem_append.mpr (Or.inl h))
      · rcases List.mem_cons.mp hu with h1 | h1
        · subst h1
          by_cases hacc : col ∈ acc
          · exact Or.inl (List.mem_append.mpr (Or.inl hacc))
          · exact Or.inl (List.mem_append.mpr (Or.inr
              (List.mem_filter.mpr ⟨hcol, by simpa using hacc⟩)))
        · exact Or.inr ⟨u, h1, hcol⟩

theorem mem_combinedCols (ts : List NormalizedTable) (col : String) :
    col ∈ combinedCols ts ↔ ∃ t, t ∈ ts ∧ col ∈ t.cols := by
  have := mem_foldl_union ts [] col
  simpa [combinedCols] using this

theorem nodup_foldl_union (ts : List NormalizedTable)
    (hts : ∀ t ∈ ts, t.cols.Nodup) :
    ∀ acc : List String, acc.Nodup →
      (ts.foldl (fun a t => a ++ t.cols.filter (fun c => decide (c ∉ a))) acc).Nodup := by
  induction ts with
  | nil => intro acc h; simpa
  | cons t rest ih =>
    intro acc hacc
    simp only [List.foldl_cons]
    apply ih (fun u hu => hts u (by simp [hu]))
    apply List.Nodup.append hacc ((hts t (by simp)).filter _)
    intro a ha hafil
    have h2 : a ∉ acc := by simpa using (List.mem_filter.mp hafil).2
    exact h2 ha

theorem nodup_combinedCols (ts : List NormalizedTable)
    (h : ∀ t ∈ ts, t.cols.Nodup) : (combinedCols ts).Nodup :=
  nodup_foldl_union ts h [] List.nodup_nil

theorem combineTables_rows_length (ts : List NormalizedTable) :
    (combineTables ts).rows.length = (ts.map (fun t => t.rows.length)).sum := by
  simp [combineTables, List.map_map, Function.comp_def]

/-! ## Claim theorems -/

/-- C2: header normalization synthesizes `Column_<i>` for blank cells and
deduplicates left-to-right with `_<k>` suffixes; `["A","A","","A"]` yields
`["A","A_1","Column_3","A_2"]`; the one-pass loop equals blank-fill followed
by deduplication; and re-applying it to already-unique non-blank names
returns them unchanged. -/
theorem unique_headers_spec :
    uniqueHeaders ["A", "A", "", "A"] = ["A", "A_1", "Column_3", "A_2"] ∧
    (∀ hs : List String, uniqueHeaders hs = dedupHeaders (fillBlank hs)) ∧
    (∀ hs : List String, hs.Nodup → (∀ s ∈ hs, blank s = false) →
      uniqueHeaders hs = hs) := by
  refine ⟨by decide, ?_, ?_⟩
  · intro hs
    exact uniqueAux_eq_dedup_fill hs 0 []
  · intro hs hnd hnb
    rw [show uniqueHeaders hs = dedupAux (fillAux hs 0) [] from
      uniqueAux_eq_dedup_fill hs 0 [], fillAux_id hs 0 hnb]
    exact dedupAux_fresh hs [] hnd (fun s _ => rfl)

/-- Witness for C2: deduplication leaves the already-unique non-blank list
`["Name","Age"]` unchanged. -/
theorem unique_headers_spec_witness : uniqueHeaders ["Name", "Age"] = ["Name", "Age"] :=
  unique_headers_spec.2.2 ["Name", "Age"] (by decide) (by decide)

/-- C4 (code bug): the deduplication loop does not re-check the suffixed name
against existing headers, so the header row `["A","A_1","A"]` produces the
duplicate column list `["A","A_1","A_1","_source_sheet"]`, violating the
specified uniqueness invariant of the NormalizedTable column names. -/
theorem fetch_dup_columns_bug :
    (processValues [["A", "A_1", "A"], ["x", "y", "z"]] "S" 1).table.cols =
      ["A", "A_1", "A_1", "_source_sheet"] ∧
    ¬ ((processValues [["A", "A_1", "A"], ["x", "y", "z"]] "S" 1).table.cols).Nodup :=
  ⟨by decide, by decide⟩

/-- C7: normalization pads every row to `max_cols` (the longest input row
length), the resulting table is rectangular, and the concrete grid
`[["Name","Age"],["Bob","30"],["Ann","28"]]` with header row 1 and
provenance `"S1"` gives columns `["Name","Age","_source_sheet"]` and two
data rows both stamped `"S1"`. -/
theorem normalize_pads_rows :
    (∀ (g : List (List String)) (r : List String), r ∈ g →
      (padRow (maxCols g) r).length = maxCols g) ∧
    (∀ (values : List (List String)) (prov : String) (h : Nat) (r : List String),
      1 ≤ h → r ∈ (processValues values prov h).table.rows →
      r.length = (processValues values prov h).table.cols.length) ∧
    processValues [["Name", "Age"], ["Bob", "30"], ["Ann", "28"]] "S1" 1 =
      ⟨⟨["Name", "Age", "_source_sheet"], [["Bob", "30", "S1"], ["Ann", "28", "S1"]]⟩,
       []⟩ := by
  refine ⟨?_, ?_, by decide⟩
  · intro g r hr
    exact padRow_length (length_le_maxCols g r hr)
  · intro values prov h r _ hr
    exact processValues_rect values prov h r hr

/-- Witness for C7 at a concrete ragged grid and at the scenario table. -/
theorem normalize_pads_rows_witness :
    (padRow (maxCols [["a"], ["b", "c"]]) ["a"]).length = maxCols [["a"], ["b", "c"]] ∧
    (["Bob", "30", "S1"] : List String).length =
      (processValues [["Name", "Age"], ["Bob", "30"], ["Ann", "28"]] "S1" 1).table.cols.length :=
  ⟨normalize_pads_rows.1 [["a"], ["b", "c"]] ["a"] (by decide),
   normalize_pads_rows.2.1 [["Name", "Age"], ["Bob", "30"], ["Ann", "28"]] "S1" 1
     ["Bob", "30", "S1"] (by decide) (by decide)⟩

/-- C8: identifier extraction matches `/spreadsheets/d/<id>` with `<id>`
one-or-more of `[A-Za-z0-9_-]`: any returned id is a non-empty string over
that class, the documented Google Sheets URL yields `"1A2b3C"`, and a URL
without the segment fails (`none`, the raised `InvalidUrlError`). -/
theorem extract_sheet_id_spec :
    (∀ (url s : String), extract_sheet_id url = some s →
      s.toList ≠ [] ∧ ∀ c ∈ s.toList, isIdChar c = true) ∧
    extract_sheet_id "https://docs.google.com/spreadsheets/d/1A2b3C/edit#gid=0" =
      some "1A2b3C" ∧
    extract_sheet_id "https://example.com/nope" = none := by
  refine ⟨?_, by decide, by decide⟩
  intro url s h
  rw [extract_sheet_id, Option.map_eq_some'] at h
  obtain ⟨ids, hids, hs⟩ := h
  subst hs
  exact extractAux_sound url.toList ids hids

/-- Witness for C8: the id extracted from the scenario URL is non-empty and
drawn from the pattern's character class. -/
theorem extract_sheet_id_spec_witness :
    ("1A2b3C" : String).toList ≠ [] ∧
    ∀ c ∈ ("1A2b3C" : String).toList, isIdChar c = true :=
  extract_sheet_id_spec.1 "https://docs.google.com/spreadsheets/d/1A2b3C/edit#gid=0"
    "1A2b3C" extract_sheet_id_spec.2.1

/-- C9: `add_sheet` on a fetch that produced a table with zero data rows
returns failure and leaves the sheet collection (indeed the whole Combiner
state) exactly as it was. -/
theorem add_sheet_empty_rejected :
    ∀ (c : Combiner) (fetched : NormalizedTable) (sheet_id gid sheet_name : String)
      (header_row : Nat) (custom_name : Option String),
      fetched.rows = [] →
      c.add_sheet fetched sheet_id gid sheet_name header_row custom_name = (false, c) := by
  intro c fetched sid gid name h cn hrows
  unfold Combiner.add_sheet
  rw [hrows]
  simp

/-- Witness for C9 on the empty-rowed table `⟨["A"], []⟩`. -/
theorem add_sheet_empty_rejected_witness :
    Combiner.init.add_sheet ⟨["A"], []⟩ "id" "0" "S1" 1 none = (false, Combiner.init) :=
  add_sheet_empty_rejected Combiner.init ⟨["A"], []⟩ "id" "0" "S1" 1 none rfl

/-- C10: on the authenticated channel the worksheet gid does not influence
the fetched table when a non-empty worksheet name is given — the A1 range is
built from the name alone and gid only feeds the provenance fallback. -/
theorem fetch_auth_ignores_gid :
    ∀ (remote : String → List (List String)) (sheet_id sheet_name g1 g2 : String)
      (header_row : Nat), sheet_name ≠ "" →
      fetch_sheet_data_auth remote sheet_id sheet_name g1 header_row =
        fetch_sheet_data_auth remote sheet_id sheet_name g2 header_row := by
  intro remote sid name g1 g2 h hname
  unfold fetch_sheet_data_auth
  rw [show provenance name sid g1 = provenance name sid g2 by simp [provenance, hname]]

/-- Witness for C10 with a concrete remote worksheet and gids "0" vs "9". -/
theorem fetch_auth_ignores_gid_witness :
    fetch_sheet_data_auth (fun _ => [["H"], ["1"]]) "id" "S1" "0" 1 =
      fetch_sheet_data_auth (fun _ => [["H"], ["1"]]) "id" "S1" "9" 1 :=
  fetch_auth_ignores_gid (fun _ => [["H"], ["1"]]) "id" "S1" "0" "9" 1 (by decide)

/-- C5: whenever the public CSV response body is the HTML shell (detected by
the literal content-prefix check on the stripped text), the public fetch
surfaces the not-publicly-accessible error and returns no data table. -/
theorem public_html_shell_error :
    ∀ (text : String) (rows : List (List String)) (sheet_id sheet_name gid : String)
      (header_row : Nat), htmlShell text = true →
      fetch_sheet_data_public (PublicResponse.body text rows) sheet_id sheet_name gid
        header_row = ⟨emptyTable, [FetchNote.notPubliclyAccessible]⟩ := by
  intro text rows sid name gid h hshell
  unfold fetch_sheet_data_public
  simp [hshell]

/-- Witness for C5 on a concrete HTML shell body. -/
theorem public_html_shell_error_witness :
    fetch_sheet_data_public
      (PublicResponse.body "<!DOCTYPE html><html></html>" [["x"]]) "id" "S" "0" 1 =
      ⟨emptyTable, [FetchNote.notPubliclyAccessible]⟩ :=
  public_html_shell_error "<!DOCTYPE html><html></html>" [["x"]] "id" "S" "0" 1 (by decide)

/-- C3 counterexample: on the public channel a header row beyond the
available rows is not clamped to row 1 — the fetch yields the empty table
(the caught CSV-parse failure), which differs from the row-1 result. -/
theorem public_header_clamp_cex :
    (fetch_sheet_data_public (PublicResponse.body "A\n1" [["A"], ["1"]])
        "id" "S" "0" 5).table = emptyTable ∧
    (fetch_sheet_data_public (PublicResponse.body "A\n1" [["A"], ["1"]])
        "id" "S" "0" 5).table ≠
      (fetch_sheet_data_public (PublicResponse.body "A\n1" [["A"], ["1"]])
        "id" "S" "0" 1).table :=
  ⟨by decide, by decide⟩

/-- C3 amended: on the authenticated channel an out-of-range header row is
clamped to row 1 with a correction notice; on the public channel the
out-of-range header makes the CSV parse fail, which is caught and surfaced
as an error with an empty table — neither channel throws to the caller. -/
theorem header_row_clamp_amended :
    (∀ (values : List (List String)) (prov : String) (h : Nat),
      values ≠ [] → 1 ≤ h → values.length < h →
      processValues values prov h =
        ⟨(processValues values prov 1).table, [FetchNote.clampNotice]⟩) ∧
    (∀ (text : String) (rows : List (List String)) (sheet_id sheet_name gid : String)
      (h : Nat), htmlShell text = false → rows ≠ [] → rows.length < h →
      fetch_sheet_data_public (PublicResponse.body text rows) sheet_id sheet_name gid h =
        ⟨emptyTable, [FetchNote.processingError]⟩) := by
  constructor
  · intro values prov h hne h1 hlt
    have hie : values.isEmpty = false := by
      cases values with
      | nil => exact absurd rfl hne
      | cons a rest => rfl
    have hlen : (values.map (padRow (maxCols values))).length = values.length :=
      List.length_map _ _
    have hpos : 0 < values.length := by
      cases values with
      | nil => exact absurd rfl hne
      | cons a rest => simp
    have hc1 : (values.map (padRow (maxCols values))).length ≤ h - 1 := by omega
    have hc2 : ¬ ((values.map (padRow (maxCols values))).length ≤ 1 - 1) := by omega
    simp [processValues, hie, hc1, hc2]
    rw [if_pos (show values.length ≤ h - 1 by omega), if_neg hne]
  · intro text rows sid name gid h hshell hne hlt
    have hie : rows.isEmpty = false := by
      cases rows with
      | nil => exact absurd rfl hne
      | cons a rest => rfl
    have hpos : 0 < rows.length := by
      cases rows with
      | nil => exact absurd rfl hne
      | cons a rest => simp
    have hcl : rows.length ≤ h - 1 := by omega
    simp [fetch_sheet_data_public, hshell, hie, hcl]

/-- Witness for C3 amended: the authenticated clamp and the public degrade
at the concrete one-column sheet with header row 5. -/
theorem header_row_clamp_amended_witness :
    processValues [["A"], ["1"]] "S" 5 =
      ⟨(processValues [["A"], ["1"]] "S" 1).table, [FetchNote.clampNotice]⟩ ∧
    fetch_sheet_data_public (PublicResponse.body "A\n1" [["A"], ["1"]])
        "id" "S" "0" 5 = ⟨emptyTable, [FetchNote.processingError]⟩ :=
  ⟨header_row_clamp_amended.1 [["A"], ["1"]] "S" 5 (by decide) (by decide) (by decide),
   header_row_clamp_amended.2 "A\n1" [["A"], ["1"]] "id" "S" "0" 5 (by decide)
     (by decide) (by decide)⟩

/-- C1 counterexample: combining sheets with column sets `{A,B}` and `{B,C}`
fills the cells at a column absent from the row's source sheet with the
missing-value marker (`pd.concat`'s NaN, modelled `none`), which is not the
claimed explicit empty-string value. -/
theorem combine_missing_cell_cex :
    combineTables [⟨["A", "B"], [["a1", "b1"]]⟩, ⟨["B", "C"], [["b2", "c2"]]⟩] =
      ⟨["A", "B", "C"],
       [[some "a1", some "b1", none], [none, some "b2", some "c2"]]⟩ ∧
    (none : Option String) ≠ some "" :=
  ⟨by decide, by decide⟩

/-- C1 amended: for a Combiner holding at least one sheet, `combine` returns
the row-wise concatenation of the sheets' tables in insertion order; the
combined column list is the union of the sheets' columns in first-seen order
(and duplicate-free when each sheet's columns are); a row's cell at a column
absent from its source sheet is the missing-value marker `none` (pandas NaN),
while a cell at a present column carries that column's value from the row. -/
theorem combine_sheets_amended :
    ∀ (c : Combiner), c.sheets_data ≠ [] →
      ∃ ct c2, Combiner.combine c = some (ct, c2) ∧
        ct = combineTables (c.sheets_data.map (fun s => s.data)) ∧
        (∀ col, col ∈ ct.cols ↔ ∃ s, s ∈ c.sheets_data ∧ col ∈ s.data.cols) ∧
        ((∀ s ∈ c.sheets_data, s.data.cols.Nodup) → ct.cols.Nodup) ∧
        ct.rows = (c.sheets_data.map (fun s =>
          s.data.rows.map (fun r => alignRow s.data.cols r ct.cols))).flatten ∧
        ct.rows.length = (c.sheets_data.map (fun s => s.data.rows.length)).sum ∧
        (∀ (tcols r : List String) (col : String), col ∉ tcols →
          lookupCell tcols r col = none) ∧
        (∀ (tcols r : List String) (col : String), col ∈ tcols →
          r.length = tcols.length →
          ∃ v, lookupCell tcols r col = some v ∧ (col, v) ∈ tcols.zip r) := by
  intro c hne
  have hie : c.sheets_data.isEmpty = false := by
    cases h : c.sheets_data with
    | nil => exact absurd h hne
    | cons a rest => rfl
  refine ⟨combineTables (c.sheets_data.map (fun s => s.data)),
    { c with combined_data := combineTables (c.sheets_data.map (fun s => s.data)) },
    ?_, rfl, ?_, ?_, ?_, ?_, lookupCell_not_mem, lookupCell_mem⟩
  · simp [Combiner.combine, hie]
  · intro col
    constructor
    · intro h
      obtain ⟨t, ht, hcol⟩ := (mem_combinedCols _ col).mp h
      obtain ⟨s, hs, rfl⟩ := List.mem_map.mp ht
      exact ⟨s, hs, hcol⟩
    · rintro ⟨s, hs, hcol⟩
      exact (mem_combinedCols _ col).mpr ⟨s.data, List.mem_map.mpr ⟨s, hs, rfl⟩, hcol⟩
  · intro hnd
    apply nodup_combinedCols
    intro t ht
    obtain ⟨s, hs, rfl⟩ := List.mem_map.mp ht
    exact hnd s hs
  · show (combineTables _).rows = _
    simp [combineTables, List.map_map, Function.comp_def]
  · exact combineTables_rows_length _ |>.trans (by simp [List.map_map, Function.comp_def])

/-- Witness for C1 amended at a one-sheet Combiner, using its missing-cell
clause at the `{B,C}` sheet and the column `A`. -/
theorem combine_sheets_amended_witness :
    lookupCell ["B", "C"] ["b2", "c2"] "A" = none ∧
    Combiner.combine ⟨[⟨"id", "0", "S1", "S1", ⟨["A"], [["x"]]⟩, 1⟩], ⟨[], []⟩⟩ ≠
      none := by
  obtain ⟨ct, c2, h1, _, _, _, _, _, hmiss, _⟩ :=
    combine_sheets_amended ⟨[⟨"id", "0", "S1", "S1", ⟨["A"], [["x"]]⟩, 1⟩], ⟨[], []⟩⟩
      (by decide)
  exact ⟨hmiss ["B", "C"] ["b2", "c2"] "A" (by decide), by rw [h1]; simp⟩

/-- C6 counterexample: after combining one sheet and then adding a second
sheet without recombining, `get_summary` still reports the cached one-sheet
total (1 row) while the combination of the currently held sheets has 2 rows
— the summary totals do not reflect the add. -/
theorem summary_stale_cex :
    staleDemo.get_summary.total_rows = 1 ∧
    (combineTables (staleDemo.sheets_data.map (fun s => s.data))).rows.length = 2 ∧
    staleDemo.get_summary.total_rows ≠
      (combineTables (staleDemo.sheets_data.map (fun s => s.data))).rows.length :=
  ⟨by decide, by decide, by decide⟩

/-- C6 amended: `get_summary` is a pure projection of the Combiner state whose
totals describe the cached result of the most recent `combine()`; immediately
after a `combine()` (with no interleaving mutation) its column list, total
row count and total column count describe the combination of the currently
held sheets, and the per-sheet stats always reflect the current sheets. -/
theorem get_summary_after_combine :
    ∀ (c : Combiner) (ct : CombinedTable) (c2 : Combiner),
      Combiner.combine c = some (ct, c2) →
      c2.sheets_data = c.sheets_data ∧
      c2.get_summary.columns = combinedCols (c2.sheets_data.map (fun s => s.data)) ∧
      c2.get_summary.total_rows = (c2.sheets_data.map (fun s => s.data.rows.length)).sum ∧
      c2.get_summary.total_columns = c2.get_summary.columns.length ∧
      c2.get_summary.sheets =
        c2.sheets_data.map (fun s => ⟨s.display_name, s.data.rows.length, s.header_row⟩) := by
  intro c ct c2 h
  unfold Combiner.combine at h
  by_cases hie : c.sheets_data.isEmpty
  · simp [hie] at h
  · rw [if_neg hie] at h
    have h2 := Option.some.inj h
    rw [Prod.mk.injEq] at h2
    obtain ⟨rfl, rfl⟩ := h2
    refine ⟨rfl, rfl, ?_, rfl, rfl⟩
    show (combineTables _).rows.length = _
    exact combineTables_rows_length _ |>.trans (by simp [List.map_map, Function.comp_def])

/-- Witness for C6 amended: the summary right after combining a one-sheet
Combiner reports the current sheets' total row count. -/
theorem get_summary_after_combine_witness :
    (⟨[⟨"id", "0", "S1", "S1", ⟨["A"], [["x"]]⟩, 1⟩],
      ⟨["A"], [[some "x"]]⟩⟩ : Combiner).get_summary.total_rows =
      (([⟨"id", "0", "S1", "S1", ⟨["A"], [["x"]]⟩, 1⟩] : List AcquiredSheet).map
        (fun s => s.data.rows.length)).sum := by
  have h := get_summary_after_combine
    ⟨[⟨"id", "0", "S1", "S1", ⟨["A"], [["x"]]⟩, 1⟩], ⟨[], []⟩⟩
    ⟨["A"], [[some "x"]]⟩
    ⟨[⟨"id", "0", "S1", "S1", ⟨["A"], [["x"]]⟩, 1⟩], ⟨["A"], [[some "x"]]⟩⟩
    (by decide)
  exact h.2.2.1

end App
